import Mathlib

/-!
Shallow embedding of the raster-to-grid aggregation core of
`contrail_processor.py` (functions `map_pixels_to_grid`,
`process_single_file_pair`, `process_contrail_data` and the ratio-matrix
derivation), together with theorems checking the specification's claims.

Floating-point coordinate values are modelled as exact rationals; a NaN
coordinate is modelled as `Option.none`.  Count matrices (numpy int32
arrays, non-negative throughout the program) are modelled as a record of
explicit dimensions plus an entry function.
-/

namespace Contrail

/-- One cell-count matrix (`np.zeros((180, 360), dtype=np.int32)` and its
descendants): explicit number of rows and columns plus the entries. -/
structure CountGrid where
  rows : ℕ
  cols : ℕ
  entry : ℕ → ℕ → ℕ

/-- Embedding of `np.zeros((r, c), dtype=np.int32)`. -/
def CountGrid.zeros (r c : ℕ) : CountGrid :=
  { rows := r, cols := c, entry := fun _ _ => 0 }

/-- Embedding of the in-place element increment `count[lat_idx, lon_idx] += 1`. -/
def CountGrid.inc (g : CountGrid) (i j : ℕ) : CountGrid :=
  { g with entry := fun a b => if a = i ∧ b = j then g.entry a b + 1 else g.entry a b }

/-- Embedding of the numpy element-wise accumulation `count_0 += result_grid`
(shapes agree throughout the program; the left operand keeps its shape). -/
def CountGrid.add (g h : CountGrid) : CountGrid :=
  { rows := g.rows, cols := g.cols, entry := fun a b => g.entry a b + h.entry a b }

/-- Sum of all entries of the matrix (over its declared shape). -/
def CountGrid.total (g : CountGrid) : ℕ :=
  ∑ i ∈ Finset.range g.rows, ∑ j ∈ Finset.range g.cols, g.entry i j

/-- One pixel of a work unit: the binarized class value `binary_image[i, j]`
together with its `lat_data[i, j]` and `lon_data[i, j]` coordinates
(`none` models NaN). -/
structure Pixel where
  value : ℤ
  lat : Option ℚ
  lon : Option ℚ

/-- Embedding of the boundary nudge on latitude in `map_pixels_to_grid`:
`if lat == 90.0: lat = 89.999 elif lat == -90.0: lat = -89.999`. -/
def nudgeLat (lat : ℚ) : ℚ :=
  if lat = 90 then 89.999 else if lat = -90 then -89.999 else lat

/-- Embedding of the boundary nudge on longitude in `map_pixels_to_grid`:
`if lon == 180.0: lon = 179.999 elif lon == -180.0: lon = -179.999`. -/
def nudgeLon (lon : ℚ) : ℚ :=
  if lon = 180 then 179.999 else if lon = -180 then -179.999 else lon

/-- Python `int(...)` applied to a float value: truncation toward zero. -/
def pyInt (q : ℚ) : ℤ := if 0 ≤ q then ⌊q⌋ else ⌈q⌉

/-- Embedding of the latitude index computation of `map_pixels_to_grid`:
`lat_grid = np.floor(lat) + 0.5; lat_idx = int(89.5 - lat_grid)`,
applied after the boundary nudge. -/
def latIdx (lat : ℚ) : ℤ :=
  pyInt (89.5 - ((⌊nudgeLat lat⌋ : ℚ) + 0.5))

/-- Embedding of the longitude index computation of `map_pixels_to_grid`:
`lon_grid = np.floor(lon) + 0.5; lon_idx = int(lon_grid + 179.5)`,
applied after the boundary nudge. -/
def lonIdx (lon : ℚ) : ℤ :=
  pyInt (((⌊nudgeLon lon⌋ : ℚ) + 0.5) + 179.5)

/-- The per-pixel validity test of `map_pixels_to_grid`:
`np.isnan(lat) or np.isnan(lon) or lat < -90 or lat > 90 or lon < -180 or lon > 180`
(`true` means the pixel is skipped). -/
def pixelSkip (p : Pixel) : Bool :=
  match p.lat, p.lon with
  | some lat, some lon =>
      decide (lat < -90) || decide (90 < lat) || decide (lon < -180) || decide (180 < lon)
  | _, _ => true

/-- The loop body of `map_pixels_to_grid` for one pixel: validity check,
boundary nudge, index computation, final range guard, then increment of
`count_0` (class value 0) or `count_1` (any other class value). -/
def processPixel (st : CountGrid × CountGrid) (p : Pixel) : CountGrid × CountGrid :=
  match p.lat, p.lon with
  | some lat, some lon =>
      if lat < -90 ∨ 90 < lat ∨ lon < -180 ∨ 180 < lon then st
      else
        let lat_idx := latIdx lat
        let lon_idx := lonIdx lon
        if 0 ≤ lat_idx ∧ lat_idx < 180 ∧ 0 ≤ lon_idx ∧ lon_idx < 360 then
          if p.value = 0 then (st.1.inc lat_idx.toNat lon_idx.toNat, st.2)
          else (st.1, st.2.inc lat_idx.toNat lon_idx.toNat)
        else st
  | _, _ => st

/-- Embedding of `map_pixels_to_grid`: the double loop over all pixels,
accumulating into the two count matrices (the pixels are listed in loop
order; the matching-shape case, where no coordinate resampling happens). -/
def map_pixels_to_grid (pixels : List Pixel) (count_0 count_1 : CountGrid) :
    CountGrid × CountGrid :=
  pixels.foldl processPixel (count_0, count_1)

/-- The result dictionary of `process_single_file_pair`: either a success
carrying the two partial count matrices, or a failure carrying the unit
identifier and an error message (the dictionary with `success: False` and
`count_0 = count_1 = None`). -/
inductive WorkResult where
  | ok (count_0 count_1 : CountGrid) (file : String)
  | err (file : String) (error : String)

/-- The `success` field of the result dictionary. -/
def WorkResult.success : WorkResult → Bool
  | .ok _ _ _ => true
  | .err _ _ => false

/-- The `count_0` field of the result dictionary (`None` on failure). -/
def WorkResult.count_0 : WorkResult → Option CountGrid
  | .ok c0 _ _ => some c0
  | .err _ _ => none

/-- The `count_1` field of the result dictionary (`None` on failure). -/
def WorkResult.count_1 : WorkResult → Option CountGrid
  | .ok _ c1 _ => some c1
  | .err _ _ => none

/-- The `file` field of the result dictionary. -/
def WorkResult.file : WorkResult → String
  | .ok _ _ f => f
  | .err f _ => f

/-- Embedding of the accumulation part of `process_single_file_pair`
(steps 4 and 5 of the source): local zero matrices of fixed shape
`(180, 360)` are filled by `map_pixels_to_grid` and returned in a success
result.  The `resolution` element of the argument tuple is received but,
as in the source, never used. -/
def process_single_file_pair (resolution : ℚ) (pixels : List Pixel) (file : String) :
    WorkResult :=
  let count_0_local := CountGrid.zeros 180 360
  let count_1_local := CountGrid.zeros 180 360
  let g := map_pixels_to_grid pixels count_0_local count_1_local
  WorkResult.ok g.1 g.2 file

/-- A work unit as the scheduler sees it: either a resolvable unit carrying
its decoded pixels (in loop order), or a unit whose resolution/decoding
fails inside the worker (missing MOD03 counterpart, unreadable
coordinates, or an exception), which `process_single_file_pair` converts
into a failure result. -/
inductive WorkUnit where
  | good (file : String) (pixels : List Pixel)
  | bad (file : String) (reason : String)

/-- Running one work unit through `process_single_file_pair`: a resolvable
unit is accumulated, a failing unit returns the failure dictionary. -/
def runUnit (resolution : ℚ) : WorkUnit → WorkResult
  | .good file pixels => process_single_file_pair resolution pixels file
  | .bad file reason => WorkResult.err file reason

/-- The mutable state of the result-collection loop of
`process_contrail_data`: the two global count matrices, the number of
successfully processed files, and the list of failed files. -/
structure ReduceState where
  count_0 : CountGrid
  count_1 : CountGrid
  successful_files : ℕ
  failed_files : List String

/-- The initial reduction state: `count_0 = count_1 = np.zeros((180, 360))`,
no successes, no failures. -/
def initState : ReduceState :=
  { count_0 := CountGrid.zeros 180 360
    count_1 := CountGrid.zeros 180 360
    successful_files := 0
    failed_files := [] }

/-- One step of the result-collection loop of `process_contrail_data`:
on success, add the partial matrices into the global ones and bump the
success counter; on failure, append the file to the failure list. -/
def reduceStep (st : ReduceState) (r : WorkResult) : ReduceState :=
  match r with
  | .ok c0 c1 _ =>
      { st with
          count_0 := st.count_0.add c0
          count_1 := st.count_1.add c1
          successful_files := st.successful_files + 1 }
  | .err f _ =>
      { st with failed_files := st.failed_files ++ [f] }

/-- The reducer of `process_contrail_data`: fold the collected worker
results into the zero-initialized global state, in list order. -/
def reduceResults (results : List WorkResult) : ReduceState :=
  results.foldl reduceStep initState

/-- The derived per-cell ratio matrix (same shape as the count matrices,
rational-valued entries modelling the float32 array). -/
structure RatioGrid where
  rows : ℕ
  cols : ℕ
  entry : ℕ → ℕ → ℚ

/-- Embedding of the ratio computation of `process_contrail_data`:
`total_count = count_0 + count_1; ratio_matrix = np.zeros_like(total_count);
mask = total_count > 0; ratio_matrix[mask] = count_1[mask] / total_count[mask]`. -/
def ratio_matrix (count_0 count_1 : CountGrid) : RatioGrid :=
  let total_count := count_0.add count_1
  { rows := total_count.rows
    cols := total_count.cols
    entry := fun i j =>
      if 0 < total_count.entry i j then
        (count_1.entry i j : ℚ) / (total_count.entry i j : ℚ)
      else 0 }

/-- Outcome of one whole run of `process_contrail_data`: either a fatal
abort (an uncaught exception), or a normal return carrying the final
reduction state, the derived ratio matrix when one was computed, and the
returned count of successfully processed files. -/
inductive RunOutcome where
  | fatal (message : String)
  | done (state : ReduceState) (ratio : Option RatioGrid) (returned : ℕ)

/-- Whether the run aborted fatally. -/
def RunOutcome.isFatal : RunOutcome → Bool
  | .fatal _ => true
  | .done _ _ _ => false

/-- The final reduction state of a completed run. -/
def RunOutcome.state : RunOutcome → Option ReduceState
  | .fatal _ => none
  | .done st _ _ => some st

/-- The value returned by `process_contrail_data` (count of successes). -/
def RunOutcome.returned : RunOutcome → ℕ
  | .fatal _ => 0
  | .done _ _ n => n

/-- Embedding of `process_contrail_data` (statistics core; file discovery is
abstracted into the work-unit list, saving of results into the returned
outcome).  An empty unit list returns 0 early.  `workers > 1` runs the
parallel branch: `pool.map(process_single_file_pair, args)` followed by the
result-collection loop; otherwise the sequential branch folds each unit's
result as it is produced.  If no unit succeeded the function returns 0
without computing the ratio matrix; otherwise it derives the ratio matrix
and returns the success count.  No configuration check of `resolution` or
`workers` is performed anywhere. -/
def process_contrail_data (resolution : ℚ) (workers : ℤ) (units : List WorkUnit) :
    RunOutcome :=
  if units.isEmpty then RunOutcome.done initState none 0
  else
    let st :=
      if 1 < workers then
        reduceResults (units.map (runUnit resolution))
      else
        units.foldl (fun acc u => reduceStep acc (runUnit resolution u)) initState
    if st.successful_files = 0 then RunOutcome.done st none 0
    else RunOutcome.done st (some (ratio_matrix st.count_0 st.count_1)) st.successful_files

/-- Number of pixels of a unit that pass the validity check. -/
def validPixelCount (pixels : List Pixel) : ℕ :=
  (pixels.filter (fun p => ! pixelSkip p)).length

/-- Valid-pixel count of a work unit (0 for a failing unit, which
contributes no partial grid). -/
def WorkUnit.validCount : WorkUnit → ℕ
  | .good _ pixels => validPixelCount pixels
  | .bad _ _ => 0

/-- The partial `count_0` matrices of the successful results, in order. -/
def successGrids0 (results : List WorkResult) : List CountGrid :=
  results.filterMap fun r =>
    match r with
    | .ok c0 _ _ => some c0
    | .err _ _ => none

/-- The partial `count_1` matrices of the successful results, in order. -/
def successGrids1 (results : List WorkResult) : List CountGrid :=
  results.filterMap fun r =>
    match r with
    | .ok _ c1 _ => some c1
    | .err _ _ => none

/-- The unit identifiers of the failed results, in order. -/
def failureFiles (results : List WorkResult) : List String :=
  results.filterMap fun r =>
    match r with
    | .ok _ _ _ => none
    | .err f _ => some f

/-- Element-wise sum of a list of count matrices at one position. -/
def entrySum (gs : List CountGrid) (i j : ℕ) : ℕ :=
  (gs.map fun g => g.entry i j).sum

/-! Index arithmetic of the grid mapper. -/

lemma pyInt_intCast (n : ℤ) : pyInt (n : ℚ) = n := by
  unfold pyInt
  split_ifs with h
  · exact Int.floor_intCast n
  · exact Int.ceil_intCast n

lemma latIdx_eq (lat : ℚ) : latIdx lat = 89 - ⌊nudgeLat lat⌋ := by
  have h : (89.5 : ℚ) - ((⌊nudgeLat lat⌋ : ℚ) + 0.5) = ((89 - ⌊nudgeLat lat⌋ : ℤ) : ℚ) := by
    push_cast
    ring
  rw [latIdx, h, pyInt_intCast]

lemma lonIdx_eq (lon : ℚ) : lonIdx lon = ⌊nudgeLon lon⌋ + 180 := by
  have h : ((⌊nudgeLon lon⌋ : ℚ) + 0.5) + 179.5 = ((⌊nudgeLon lon⌋ + 180 : ℤ) : ℚ) := by
    push_cast
    ring
  rw [lonIdx, h, pyInt_intCast]

lemma floor_nudgeLat_bounds (lat : ℚ) (h1 : -90 ≤ lat) (h2 : lat ≤ 90) :
    -90 ≤ ⌊nudgeLat lat⌋ ∧ ⌊nudgeLat lat⌋ ≤ 89 := by
  unfold nudgeLat
  split_ifs with htop hbot
  · norm_num
  · norm_num
  · have hlow : (-90 : ℤ) ≤ ⌊lat⌋ := Int.le_floor.mpr (by exact_mod_cast h1)
    have hlt : lat < ((90 : ℤ) : ℚ) := by
      exact_mod_cast lt_of_le_of_ne h2 htop
    have hup : ⌊lat⌋ < 90 := Int.floor_lt.mpr hlt
    omega

lemma floor_nudgeLon_bounds (lon : ℚ) (h1 : -180 ≤ lon) (h2 : lon ≤ 180) :
    -180 ≤ ⌊nudgeLon lon⌋ ∧ ⌊nudgeLon lon⌋ ≤ 179 := by
  unfold nudgeLon
  split_ifs with htop hbot
  · norm_num
  · norm_num
  · have hlow : (-180 : ℤ) ≤ ⌊lon⌋ := Int.le_floor.mpr (by exact_mod_cast h1)
    have hlt : lon < ((180 : ℤ) : ℚ) := by
      exact_mod_cast lt_of_le_of_ne h2 htop
    have hup : ⌊lon⌋ < 180 := Int.floor_lt.mpr hlt
    omega

lemma latIdx_bounds (lat : ℚ) (h1 : -90 ≤ lat) (h2 : lat ≤ 90) :
    0 ≤ latIdx lat ∧ latIdx lat < 180 := by
  have h := floor_nudgeLat_bounds lat h1 h2
  rw [latIdx_eq]
  omega

lemma lonIdx_bounds (lon : ℚ) (h1 : -180 ≤ lon) (h2 : lon ≤ 180) :
    0 ≤ lonIdx lon ∧ lonIdx lon < 360 := by
  have h := floor_nudgeLon_bounds lon h1 h2
  rw [lonIdx_eq]
  omega

/-! Entry sums of count matrices. -/

lemma CountGrid.zeros_total (r c : ℕ) : (CountGrid.zeros r c).total = 0 := by
  simp [CountGrid.total, CountGrid.zeros]

lemma CountGrid.inc_rows (g : CountGrid) (i j : ℕ) : (g.inc i j).rows = g.rows := rfl

lemma CountGrid.inc_cols (g : CountGrid) (i j : ℕ) : (g.inc i j).cols = g.cols := rfl

lemma CountGrid.add_rows (g h : CountGrid) : (g.add h).rows = g.rows := rfl

lemma CountGrid.add_cols (g h : CountGrid) : (g.add h).cols = g.cols := rfl

lemma CountGrid.total_inc (g : CountGrid) (i j : ℕ) (hi : i < g.rows) (hj : j < g.cols) :
    (g.inc i j).total = g.total + 1 := by
  unfold CountGrid.total CountGrid.inc
  simp only
  have hsplit : ∀ a b : ℕ,
      (if a = i ∧ b = j then g.entry a b + 1 else g.entry a b) =
        g.entry a b + (if a = i ∧ b = j then 1 else 0) := by
    intro a b
    by_cases h : a = i ∧ b = j <;> simp [h]
  calc
    (∑ a ∈ Finset.range g.rows, ∑ b ∈ Finset.range g.cols,
        (if a = i ∧ b = j then g.entry a b + 1 else g.entry a b))
        = ∑ a ∈ Finset.range g.rows, ∑ b ∈ Finset.range g.cols,
            (g.entry a b + (if a = i ∧ b = j then 1 else 0)) := by
          exact Finset.sum_congr rfl fun a _ => Finset.sum_congr rfl fun b _ => hsplit a b
    _ = (∑ a ∈ Finset.range g.rows, ∑ b ∈ Finset.range g.cols, g.entry a b)
          + ∑ a ∈ Finset.range g.rows, ∑ b ∈ Finset.range g.cols,
              (if a = i ∧ b = j then 1 else 0) := by
          rw [← Finset.sum_add_distrib]
          exact Finset.sum_congr rfl fun a _ => Finset.sum_add_distrib
    _ = (∑ a ∈ Finset.range g.rows, ∑ b ∈ Finset.range g.cols, g.entry a b) + 1 := by
          congr 1
          have hinner : ∀ a : ℕ,
              (∑ b ∈ Finset.range g.cols, (if a = i ∧ b = j then (1 : ℕ) else 0)) =
                if a = i then 1 else 0 := by
            intro a
            by_cases ha : a = i
            · subst ha
              simp only [true_and]
              rw [Finset.sum_ite_eq' (Finset.range g.cols) j (fun _ => (1 : ℕ))]
              simp [hj]
            · simp [ha]
          rw [Finset.sum_congr rfl fun a _ => hinner a]
          rw [Finset.sum_ite_eq' (Finset.range g.rows) i (fun _ => (1 : ℕ))]
          simp [hi]

lemma CountGrid.total_add (g h : CountGrid) (hr : h.rows = g.rows) (hc : h.cols = g.cols) :
    (g.add h).total = g.total + h.total := by
  unfold CountGrid.total CountGrid.add
  simp only
  rw [hr, hc]
  rw [← Finset.sum_add_distrib]
  exact Finset.sum_congr rfl fun a _ => Finset.sum_add_distrib

/-! Behavior of the per-pixel loop body. -/

lemma processPixel_skip (st : CountGrid × CountGrid) (p : Pixel)
    (h : pixelSkip p = true) : processPixel st p = st := by
  obtain ⟨v, lat?, lon?⟩ := p
  cases lat? with
  | none => rfl
  | some lat =>
    cases lon? with
    | none => rfl
    | some lon =>
      have hcond : lat < -90 ∨ 90 < lat ∨ lon < -180 ∨ 180 < lon := by
        simpa [pixelSkip, or_assoc] using h
      simp only [processPixel]
      rw [if_pos hcond]

lemma processPixel_valid (st : CountGrid × CountGrid) (v : ℤ) (lat lon : ℚ)
    (h1 : -90 ≤ lat) (h2 : lat ≤ 90) (h3 : -180 ≤ lon) (h4 : lon ≤ 180) :
    processPixel st ⟨v, some lat, some lon⟩ =
      if v = 0 then (st.1.inc (latIdx lat).toNat (lonIdx lon).toNat, st.2)
      else (st.1, st.2.inc (latIdx lat).toNat (lonIdx lon).toNat) := by
  have hla := latIdx_bounds lat h1 h2
  have hlo := lonIdx_bounds lon h3 h4
  have hvalid : ¬(lat < -90 ∨ 90 < lat ∨ lon < -180 ∨ 180 < lon) := by
    push_neg
    exact ⟨h1, h2, h3, h4⟩
  simp only [processPixel]
  rw [if_neg hvalid, if_pos ⟨hla.1, hla.2, hlo.1, hlo.2⟩]

lemma pixelSkip_false_of_some (v : ℤ) (lat lon : ℚ)
    (h : pixelSkip ⟨v, some lat, some lon⟩ = false) :
    -90 ≤ lat ∧ lat ≤ 90 ∧ -180 ≤ lon ∧ lon ≤ 180 := by
  simp only [pixelSkip, Bool.or_eq_false_iff, decide_eq_false_iff_not, not_lt] at h
  exact ⟨h.1.1.1, h.1.1.2, h.1.2, h.2⟩

lemma processPixel_shape (st : CountGrid × CountGrid) (p : Pixel) :
    (processPixel st p).1.rows = st.1.rows ∧ (processPixel st p).1.cols = st.1.cols ∧
    (processPixel st p).2.rows = st.2.rows ∧ (processPixel st p).2.cols = st.2.cols := by
  obtain ⟨v, lat?, lon?⟩ := p
  cases lat? with
  | none => exact ⟨rfl, rfl, rfl, rfl⟩
  | some lat =>
    cases lon? with
    | none => exact ⟨rfl, rfl, rfl, rfl⟩
    | some lon =>
      simp only [processPixel]
      split_ifs <;> exact ⟨rfl, rfl, rfl, rfl⟩

/-- Combined background-plus-feature count of a pair of matrices. -/
def gridsTotal (st : CountGrid × CountGrid) : ℕ := st.1.total + st.2.total

lemma gridsTotal_processPixel (st : CountGrid × CountGrid) (p : Pixel)
    (hr0 : st.1.rows = 180) (hc0 : st.1.cols = 360)
    (hr1 : st.2.rows = 180) (hc1 : st.2.cols = 360) :
    gridsTotal (processPixel st p) =
      gridsTotal st + (if pixelSkip p then 0 else 1) := by
  by_cases hskip : pixelSkip p = true
  · rw [processPixel_skip st p hskip, hskip]
    simp
  · have hskip' : pixelSkip p = false := by
      simpa using hskip
    obtain ⟨v, lat?, lon?⟩ := p
    cases lat? with
    | none => simp [pixelSkip] at hskip'
    | some lat =>
      cases lon? with
      | none => simp [pixelSkip] at hskip'
      | some lon =>
        obtain ⟨h1, h2, h3, h4⟩ := pixelSkip_false_of_some v lat lon hskip'
        have hla := latIdx_bounds lat h1 h2
        have hlo := lonIdx_bounds lon h3 h4
        have hlat' : (latIdx lat).toNat < 180 := by omega
        have hlon' : (lonIdx lon).toNat < 360 := by omega
        rw [processPixel_valid st v lat lon h1 h2 h3 h4, hskip']
        simp only [Bool.false_eq_true, if_false]
        by_cases hv : v = 0
        · simp only [hv, if_pos]
          unfold gridsTotal
          simp only
          rw [CountGrid.total_inc st.1 _ _ (by omega) (by omega)]
          omega
        · rw [if_neg hv]
          unfold gridsTotal
          simp only
          rw [CountGrid.total_inc st.2 _ _ (by omega) (by omega)]
          omega

lemma foldl_processPixel_shape (pixels : List Pixel) (st : CountGrid × CountGrid) :
    (pixels.foldl processPixel st).1.rows = st.1.rows ∧
    (pixels.foldl processPixel st).1.cols = st.1.cols ∧
    (pixels.foldl processPixel st).2.rows = st.2.rows ∧
    (pixels.foldl processPixel st).2.cols = st.2.cols := by
  induction pixels generalizing st with
  | nil => exact ⟨rfl, rfl, rfl, rfl⟩
  | cons p rest ih =>
    have hstep := processPixel_shape st p
    have hrest := ih (processPixel st p)
    simp only [List.foldl_cons]
    omega

lemma gridsTotal_foldl (pixels : List Pixel) (st : CountGrid × CountGrid)
    (hr0 : st.1.rows = 180) (hc0 : st.1.cols = 360)
    (hr1 : st.2.rows = 180) (hc1 : st.2.cols = 360) :
    gridsTotal (pixels.foldl processPixel st) = gridsTotal st + validPixelCount pixels := by
  induction pixels generalizing st with
  | nil => simp [validPixelCount]
  | cons p rest ih =>
    have hstep := processPixel_shape st p
    have htot := gridsTotal_processPixel st p hr0 hc0 hr1 hc1
    have hrest := ih (processPixel st p) (by omega) (by omega) (by omega) (by omega)
    simp only [List.foldl_cons]
    rw [hrest, htot]
    by_cases hskip : pixelSkip p = true
    · simp [validPixelCount, List.filter_cons, hskip]
    · have hskip' : pixelSkip p = false := by simpa using hskip
      simp only [validPixelCount, List.filter_cons, hskip']
      simp
      omega

lemma gridsTotal_pair (a b : CountGrid) : gridsTotal (a, b) = a.total + b.total := rfl

lemma map_pixels_total (pixels : List Pixel) :
    gridsTotal (map_pixels_to_grid pixels (CountGrid.zeros 180 360) (CountGrid.zeros 180 360)) =
      validPixelCount pixels := by
  have h := gridsTotal_foldl pixels (CountGrid.zeros 180 360, CountGrid.zeros 180 360)
    rfl rfl rfl rfl
  rw [map_pixels_to_grid, h, gridsTotal_pair, CountGrid.zeros_total, Nat.add_zero,
    Nat.zero_add]

/-! Behavior of the result-collection fold. -/

lemma reduce_fold_spec (results : List WorkResult) (st : ReduceState) :
    (results.foldl reduceStep st).count_0.rows = st.count_0.rows ∧
    (results.foldl reduceStep st).count_0.cols = st.count_0.cols ∧
    (results.foldl reduceStep st).count_1.rows = st.count_1.rows ∧
    (results.foldl reduceStep st).count_1.cols = st.count_1.cols ∧
    (∀ i j, (results.foldl reduceStep st).count_0.entry i j =
        st.count_0.entry i j + entrySum (successGrids0 results) i j) ∧
    (∀ i j, (results.foldl reduceStep st).count_1.entry i j =
        st.count_1.entry i j + entrySum (successGrids1 results) i j) ∧
    (results.foldl reduceStep st).failed_files = st.failed_files ++ failureFiles results ∧
    (results.foldl reduceStep st).successful_files =
      st.successful_files + results.countP WorkResult.success := by
  induction results generalizing st with
  | nil =>
    refine ⟨rfl, rfl, rfl, rfl, ?_, ?_, by simp [failureFiles], by simp⟩
    · intro i j
      simp [successGrids0, entrySum]
    · intro i j
      simp [successGrids1, entrySum]
  | cons r rest ih =>
    obtain ⟨ihr0, ihc0, ihr1, ihc1, ihe0, ihe1, ihf, ihs⟩ := ih (reduceStep st r)
    cases r with
    | ok c0 c1 f =>
      refine ⟨?_, ?_, ?_, ?_, ?_, ?_, ?_, ?_⟩
      · simpa [reduceStep, CountGrid.add] using ihr0
      · simpa [reduceStep, CountGrid.add] using ihc0
      · simpa [reduceStep, CountGrid.add] using ihr1
      · simpa [reduceStep, CountGrid.add] using ihc1
      · intro i j
        have := ihe0 i j
        simp only [List.foldl_cons]
        rw [this]
        simp [reduceStep, CountGrid.add, successGrids0, entrySum, List.filterMap_cons]
        omega
      · intro i j
        have := ihe1 i j
        simp only [List.foldl_cons]
        rw [this]
        simp [reduceStep, CountGrid.add, successGrids1, entrySum, List.filterMap_cons]
        omega
      · simp only [List.foldl_cons]
        rw [ihf]
        simp [reduceStep, failureFiles, List.filterMap_cons]
      · simp only [List.foldl_cons]
        rw [ihs]
        simp [reduceStep, WorkResult.success, List.countP_cons]
        omega
    | err f e =>
      refine ⟨?_, ?_, ?_, ?_, ?_, ?_, ?_, ?_⟩
      · simpa [reduceStep] using ihr0
      · simpa [reduceStep] using ihc0
      · simpa [reduceStep] using ihr1
      · simpa [reduceStep] using ihc1
      · intro i j
        have := ihe0 i j
        simp only [List.foldl_cons]
        rw [this]
        simp [reduceStep, successGrids0, entrySum, List.filterMap_cons]
      · intro i j
        have := ihe1 i j
        simp only [List.foldl_cons]
        rw [this]
        simp [reduceStep, successGrids1, entrySum, List.filterMap_cons]
      · simp only [List.foldl_cons]
        rw [ihf]
        simp [reduceStep, failureFiles, List.filterMap_cons]
      · simp only [List.foldl_cons]
        rw [ihs]
        simp [reduceStep, WorkResult.success, List.countP_cons]

lemma reduceResults_entry0 (results : List WorkResult) (i j : ℕ) :
    (reduceResults results).count_0.entry i j = entrySum (successGrids0 results) i j := by
  have h := (reduce_fold_spec results initState).2.2.2.2.1 i j
  simpa [reduceResults, initState, CountGrid.zeros] using h

lemma reduceResults_entry1 (results : List WorkResult) (i j : ℕ) :
    (reduceResults results).count_1.entry i j = entrySum (successGrids1 results) i j := by
  have h := (reduce_fold_spec results initState).2.2.2.2.2.1 i j
  simpa [reduceResults, initState, CountGrid.zeros] using h

lemma reduceResults_failed (results : List WorkResult) :
    (reduceResults results).failed_files = failureFiles results := by
  have h := (reduce_fold_spec results initState).2.2.2.2.2.2.1
  simpa [reduceResults, initState] using h

lemma entrySum_perm (gs gs' : List CountGrid) (h : gs.Perm gs') (i j : ℕ) :
    entrySum gs i j = entrySum gs' i j :=
  List.Perm.sum_eq (h.map fun g => g.entry i j)

lemma successGrids0_perm (results results' : List WorkResult) (h : results.Perm results') :
    (successGrids0 results).Perm (successGrids0 results') := h.filterMap _

lemma successGrids1_perm (results results' : List WorkResult) (h : results.Perm results') :
    (successGrids1 results).Perm (successGrids1 results') := h.filterMap _

/-! Conservation of pixel counts through the reduction. -/

lemma CountGrid.total_eq_of_shape (g : CountGrid) (hr : g.rows = 180) (hc : g.cols = 360) :
    g.total = ∑ i ∈ Finset.range 180, ∑ j ∈ Finset.range 360, g.entry i j := by
  unfold CountGrid.total
  rw [hr, hc]

lemma sum_entrySum (gs : List CountGrid)
    (h : ∀ g ∈ gs, g.rows = 180 ∧ g.cols = 360) :
    (∑ i ∈ Finset.range 180, ∑ j ∈ Finset.range 360, entrySum gs i j) =
      (gs.map CountGrid.total).sum := by
  induction gs with
  | nil => simp [entrySum]
  | cons g rest ih =>
    have hg := h g (List.mem_cons_self g rest)
    have hrest := ih fun g' hg' => h g' (List.mem_cons_of_mem g hg')
    have hsplit : ∀ i j, entrySum (g :: rest) i j = g.entry i j + entrySum rest i j := by
      intro i j
      simp [entrySum]
    calc
      (∑ i ∈ Finset.range 180, ∑ j ∈ Finset.range 360, entrySum (g :: rest) i j)
          = ∑ i ∈ Finset.range 180, ∑ j ∈ Finset.range 360,
              (g.entry i j + entrySum rest i j) := by
            exact Finset.sum_congr rfl fun i _ => Finset.sum_congr rfl fun j _ => hsplit i j
      _ = (∑ i ∈ Finset.range 180, ∑ j ∈ Finset.range 360, g.entry i j)
            + ∑ i ∈ Finset.range 180, ∑ j ∈ Finset.range 360, entrySum rest i j := by
            rw [← Finset.sum_add_distrib]
            exact Finset.sum_congr rfl fun i _ => Finset.sum_add_distrib
      _ = g.total + ((rest.map CountGrid.total).sum) := by
            rw [hrest, CountGrid.total_eq_of_shape g hg.1 hg.2]
      _ = ((g :: rest).map CountGrid.total).sum := by
            simp

lemma reduceResults_shape (results : List WorkResult) :
    (reduceResults results).count_0.rows = 180 ∧
    (reduceResults results).count_0.cols = 360 ∧
    (reduceResults results).count_1.rows = 180 ∧
    (reduceResults results).count_1.cols = 360 := by
  have h := reduce_fold_spec results initState
  exact ⟨by simpa [reduceResults, initState, CountGrid.zeros] using h.1,
    by simpa [reduceResults, initState, CountGrid.zeros] using h.2.1,
    by simpa [reduceResults, initState, CountGrid.zeros] using h.2.2.1,
    by simpa [reduceResults, initState, CountGrid.zeros] using h.2.2.2.1⟩

lemma reduceResults_total (results : List WorkResult)
    (h0 : ∀ g ∈ successGrids0 results, g.rows = 180 ∧ g.cols = 360)
    (h1 : ∀ g ∈ successGrids1 results, g.rows = 180 ∧ g.cols = 360) :
    (reduceResults results).count_0.total + (reduceResults results).count_1.total =
      ((successGrids0 results).map CountGrid.total).sum +
        ((successGrids1 results).map CountGrid.total).sum := by
  obtain ⟨hr0, hc0, hr1, hc1⟩ := reduceResults_shape results
  have ht0 : (reduceResults results).count_0.total =
      ((successGrids0 results).map CountGrid.total).sum := by
    rw [CountGrid.total_eq_of_shape _ hr0 hc0, ← sum_entrySum (successGrids0 results) h0]
    exact Finset.sum_congr rfl fun i _ => Finset.sum_congr rfl fun j _ =>
      reduceResults_entry0 results i j
  have ht1 : (reduceResults results).count_1.total =
      ((successGrids1 results).map CountGrid.total).sum := by
    rw [CountGrid.total_eq_of_shape _ hr1 hc1, ← sum_entrySum (successGrids1 results) h1]
    exact Finset.sum_congr rfl fun i _ => Finset.sum_congr rfl fun j _ =>
      reduceResults_entry1 results i j
  omega

lemma map_pixels_shape (pixels : List Pixel) :
    (map_pixels_to_grid pixels (CountGrid.zeros 180 360) (CountGrid.zeros 180 360)).1.rows = 180 ∧
    (map_pixels_to_grid pixels (CountGrid.zeros 180 360) (CountGrid.zeros 180 360)).1.cols = 360 ∧
    (map_pixels_to_grid pixels (CountGrid.zeros 180 360) (CountGrid.zeros 180 360)).2.rows = 180 ∧
    (map_pixels_to_grid pixels (CountGrid.zeros 180 360) (CountGrid.zeros 180 360)).2.cols = 360 := by
  have h := foldl_processPixel_shape pixels (CountGrid.zeros 180 360, CountGrid.zeros 180 360)
  simpa [map_pixels_to_grid, CountGrid.zeros] using h

lemma runUnit_grid_shape (res : ℚ) (units : List WorkUnit) :
    (∀ g ∈ successGrids0 (units.map (runUnit res)), g.rows = 180 ∧ g.cols = 360) ∧
    (∀ g ∈ successGrids1 (units.map (runUnit res)), g.rows = 180 ∧ g.cols = 360) := by
  induction units with
  | nil => simp [successGrids0, successGrids1]
  | cons u rest ih =>
    cases u with
    | good f pixels =>
      have hs := map_pixels_shape pixels
      constructor
      · intro g hg
        simp only [List.map_cons, runUnit, process_single_file_pair, successGrids0,
          List.filterMap_cons] at hg
        cases hg with
        | head => exact ⟨hs.1, hs.2.1⟩
        | tail _ hg => exact ih.1 g hg
      · intro g hg
        simp only [List.map_cons, runUnit, process_single_file_pair, successGrids1,
          List.filterMap_cons] at hg
        cases hg with
        | head => exact ⟨hs.2.2.1, hs.2.2.2⟩
        | tail _ hg => exact ih.2 g hg
    | bad f reason =>
      constructor
      · intro g hg
        simp only [List.map_cons, runUnit, successGrids0, List.filterMap_cons] at hg
        exact ih.1 g hg
      · intro g hg
        simp only [List.map_cons, runUnit, successGrids1, List.filterMap_cons] at hg
        exact ih.2 g hg

lemma units_grid_total (res : ℚ) (units : List WorkUnit) :
    ((successGrids0 (units.map (runUnit res))).map CountGrid.total).sum +
      ((successGrids1 (units.map (runUnit res))).map CountGrid.total).sum =
      (units.map WorkUnit.validCount).sum := by
  induction units with
  | nil => simp [successGrids0, successGrids1]
  | cons u rest ih =>
    cases u with
    | good f pixels =>
      have htot := map_pixels_total pixels
      simp only [List.map_cons, runUnit, process_single_file_pair, successGrids0, successGrids1,
        List.filterMap_cons, WorkUnit.validCount, List.sum_cons]
      simp only [successGrids0, successGrids1] at ih
      unfold gridsTotal at htot
      omega
    | bad f reason =>
      simp only [List.map_cons, runUnit, successGrids0, successGrids1,
        List.filterMap_cons, WorkUnit.validCount, List.sum_cons]
      simp only [successGrids0, successGrids1] at ih
      omega

/-! Sample data used by witnesses and counterexamples. -/

/-- A constant 180-by-360 count matrix used in witness instantiations. -/
def sampleGrid : CountGrid :=
  { rows := 180, cols := 360, entry := fun _ _ => 3 }

/-- A successful work result carrying the sample grid twice. -/
def sampleOk : WorkResult := WorkResult.ok sampleGrid sampleGrid "a"

/-- A failed work result for the unit named `b`. -/
def sampleErr : WorkResult := WorkResult.err "b" "corrupted"

/-- A resolvable work unit with no pixels. -/
def sampleUnit : WorkUnit := WorkUnit.good "u1" []

/-- A background-count matrix holding 3 at cell (10, 20) and 0 elsewhere. -/
def exampleBackground : CountGrid :=
  { rows := 180, cols := 360, entry := fun i j => if i = 10 ∧ j = 20 then 3 else 0 }

/-- A feature-count matrix holding 7 at cell (10, 20) and 0 elsewhere. -/
def exampleFeature : CountGrid :=
  { rows := 180, cols := 360, entry := fun i j => if i = 10 ∧ j = 20 then 7 else 0 }

/-! Claim theorems. -/

/-- Claim C1: with resolution 1 (grid 180 by 360), the index mapping of
`map_pixels_to_grid` sends the exact boundary coordinates to the corner
bands: latitude 90.0 to row 0, latitude -90.0 to row 179, longitude
-180.0 to column 0, longitude 180.0 to column 359; and a valid pixel at
the north-west corner is counted in cell (0, 0). -/
theorem boundary_corner_cells :
    latIdx 90 = 0 ∧ latIdx (-90) = 179 ∧ lonIdx (-180) = 0 ∧ lonIdx 180 = 359 ∧
    (map_pixels_to_grid [⟨1, some 90, some (-180)⟩]
        (CountGrid.zeros 180 360) (CountGrid.zeros 180 360)).2.entry 0 0 = 1 := by
  have hla : latIdx 90 = 0 := by
    rw [latIdx_eq]
    norm_num [nudgeLat]
  have hlb : latIdx (-90) = 179 := by
    rw [latIdx_eq]
    norm_num [nudgeLat]
  have hlc : lonIdx (-180) = 0 := by
    rw [lonIdx_eq]
    norm_num [nudgeLon]
  have hld : lonIdx 180 = 359 := by
    rw [lonIdx_eq]
    norm_num [nudgeLon]
  refine ⟨hla, hlb, hlc, hld, ?_⟩
  have hmap : map_pixels_to_grid [⟨1, some 90, some (-180)⟩]
      (CountGrid.zeros 180 360) (CountGrid.zeros 180 360) =
      (CountGrid.zeros 180 360, (CountGrid.zeros 180 360).inc 0 0) := by
    rw [map_pixels_to_grid]
    simp only [List.foldl_cons, List.foldl_nil]
    rw [processPixel_valid _ 1 90 (-180) (by norm_num) (by norm_num) (by norm_num) (by norm_num)]
    rw [if_neg (by norm_num), hla, hlc]
    rfl
  rw [hmap]
  simp [CountGrid.inc, CountGrid.zeros]

/-- Claim C2 counterexample: the partial grid built by the accumulator at
resolution 2 still has 180 rows, not 180 / 2: the grid is not
parameterized by the resolution argument. -/
theorem resolution_parameter_counterexample :
    (process_single_file_pair 2 [] "unit").count_0.map CountGrid.rows = some 180 ∧
    (180 : ℕ) ≠ 180 / 2 := by
  exact ⟨rfl, by decide⟩

/-- Claim C2, amended: the two count matrices always have shape 180 rows by
360 columns, and the whole per-unit accumulation and the whole run are
independent of the resolution argument, which is received but never used:
the claimed parameterization holds only at resolution 1. -/
theorem grid_shape_fixed (res : ℚ) (pixels : List Pixel) (f : String)
    (workers : ℤ) (units : List WorkUnit) :
    (process_single_file_pair res pixels f).count_0.map CountGrid.rows = some 180 ∧
    (process_single_file_pair res pixels f).count_0.map CountGrid.cols = some 360 ∧
    (process_single_file_pair res pixels f).count_1.map CountGrid.rows = some 180 ∧
    (process_single_file_pair res pixels f).count_1.map CountGrid.cols = some 360 ∧
    process_single_file_pair res pixels f = process_single_file_pair 1 pixels f ∧
    process_contrail_data res workers units = process_contrail_data 1 workers units := by
  have hs := map_pixels_shape pixels
  have h0 : (process_single_file_pair res pixels f).count_0 =
      some (map_pixels_to_grid pixels (CountGrid.zeros 180 360) (CountGrid.zeros 180 360)).1 := rfl
  have h1 : (process_single_file_pair res pixels f).count_1 =
      some (map_pixels_to_grid pixels (CountGrid.zeros 180 360) (CountGrid.zeros 180 360)).2 := rfl
  have hrun : runUnit res = runUnit 1 := by
    funext u
    cases u <;> rfl
  refine ⟨?_, ?_, ?_, ?_, rfl, ?_⟩
  · rw [h0]
    exact congrArg some hs.1
  · rw [h0]
    exact congrArg some hs.2.1
  · rw [h1]
    exact congrArg some hs.2.2.1
  · rw [h1]
    exact congrArg some hs.2.2.2
  · unfold process_contrail_data
    rw [hrun]

/-- Claim C3: the reducer folds exactly the partial grids of the successful
results (element-wise sums over successes only), appends each failed
result's unit identifier to the failure list, and the folded matrices are
invariant under any permutation of the result list. -/
theorem reducer_sums_successes_only (results results' : List WorkResult)
    (hperm : results.Perm results') :
    (∀ i j, (reduceResults results).count_0.entry i j = entrySum (successGrids0 results) i j) ∧
    (∀ i j, (reduceResults results).count_1.entry i j = entrySum (successGrids1 results) i j) ∧
    (reduceResults results).failed_files = failureFiles results ∧
    (∀ i j, (reduceResults results).count_0.entry i j =
      (reduceResults results').count_0.entry i j) ∧
    (∀ i j, (reduceResults results).count_1.entry i j =
      (reduceResults results').count_1.entry i j) := by
  refine ⟨reduceResults_entry0 results, reduceResults_entry1 results,
    reduceResults_failed results, ?_, ?_⟩
  · intro i j
    rw [reduceResults_entry0, reduceResults_entry0,
      entrySum_perm _ _ (successGrids0_perm _ _ hperm) i j]
  · intro i j
    rw [reduceResults_entry1, reduceResults_entry1,
      entrySum_perm _ _ (successGrids1_perm _ _ hperm) i j]

/-- Witness for claim C3, instantiated at one success and one failure, in
the two possible orders. -/
theorem reducer_sums_successes_only_witness :
    (∀ i j, (reduceResults [sampleOk, sampleErr]).count_0.entry i j =
      entrySum (successGrids0 [sampleOk, sampleErr]) i j) ∧
    (∀ i j, (reduceResults [sampleOk, sampleErr]).count_1.entry i j =
      entrySum (successGrids1 [sampleOk, sampleErr]) i j) ∧
    (reduceResults [sampleOk, sampleErr]).failed_files = failureFiles [sampleOk, sampleErr] ∧
    (∀ i j, (reduceResults [sampleOk, sampleErr]).count_0.entry i j =
      (reduceResults [sampleErr, sampleOk]).count_0.entry i j) ∧
    (∀ i j, (reduceResults [sampleOk, sampleErr]).count_1.entry i j =
      (reduceResults [sampleErr, sampleOk]).count_1.entry i j) :=
  reducer_sums_successes_only [sampleOk, sampleErr] [sampleErr, sampleOk]
    (List.Perm.swap sampleErr sampleOk [])

/-- Claim C4: for any worker count greater than 1, the parallel branch of
`process_contrail_data` produces an outcome (count matrices, ratio matrix
and return value) identical to the sequential branch run with workers
equal to 1, the per-unit results being produced by the same per-unit
function in both modes. -/
theorem parallel_matches_sequential (res : ℚ) (units : List WorkUnit) (workers : ℤ)
    (hw : 1 < workers) :
    process_contrail_data res workers units = process_contrail_data res 1 units := by
  have hst : reduceResults (units.map (runUnit res)) =
      units.foldl (fun acc u => reduceStep acc (runUnit res u)) initState := by
    rw [reduceResults, List.foldl_map]
  unfold process_contrail_data
  rw [if_pos hw, if_neg (show ¬(1 : ℤ) < 1 by omega), hst]

/-- Witness for claim C4 at two workers and one unit. -/
theorem parallel_matches_sequential_witness :
    process_contrail_data 1 2 [sampleUnit] = process_contrail_data 1 1 [sampleUnit] :=
  parallel_matches_sequential 1 [sampleUnit] 2 (by decide)

/-- Claim C5: a pixel with a NaN coordinate or an out-of-range coordinate
is skipped by the accumulator: removing it from the unit changes neither
count matrix, and the unit still succeeds with its other pixels counted. -/
theorem invalid_pixel_skipped (res : ℚ) (f : String)
    (pre post : List Pixel) (p : Pixel) (h : pixelSkip p = true) :
    map_pixels_to_grid (pre ++ p :: post) (CountGrid.zeros 180 360) (CountGrid.zeros 180 360) =
      map_pixels_to_grid (pre ++ post) (CountGrid.zeros 180 360) (CountGrid.zeros 180 360) ∧
    (process_single_file_pair res (pre ++ p :: post) f).success = true := by
  constructor
  · unfold map_pixels_to_grid
    rw [List.foldl_append, List.foldl_append, List.foldl_cons, processPixel_skip _ p h]
  · rfl

/-- Witness for claim C5 at a pixel with latitude 91. -/
theorem invalid_pixel_skipped_witness :
    map_pixels_to_grid ([⟨0, some 10, some 20⟩] ++ ⟨0, some 91, some 0⟩ :: [⟨1, some 45, some 5⟩])
        (CountGrid.zeros 180 360) (CountGrid.zeros 180 360) =
      map_pixels_to_grid ([⟨0, some 10, some 20⟩] ++ [⟨1, some 45, some 5⟩])
        (CountGrid.zeros 180 360) (CountGrid.zeros 180 360) ∧
    (process_single_file_pair 1 ([⟨0, some 10, some 20⟩] ++ ⟨0, some 91, some 0⟩ ::
        [⟨1, some 45, some 5⟩]) "f").success = true :=
  invalid_pixel_skipped 1 "f" [⟨0, some 10, some 20⟩] [⟨1, some 45, some 5⟩]
    ⟨0, some 91, some 0⟩ (by decide)

/-- Claim C6: every coordinate that passes the validity check yields
indices with 0 ≤ lat_idx < 180 and 0 ≤ lon_idx < 360, so the final
in-range guard before the increment is never false on accepted
coordinates. -/
theorem valid_coordinate_index_in_range (lat lon : ℚ)
    (h1 : -90 ≤ lat) (h2 : lat ≤ 90) (h3 : -180 ≤ lon) (h4 : lon ≤ 180) :
    0 ≤ latIdx lat ∧ latIdx lat < 180 ∧ 0 ≤ lonIdx lon ∧ lonIdx lon < 360 := by
  have hla := latIdx_bounds lat h1 h2
  have hlo := lonIdx_bounds lon h3 h4
  exact ⟨hla.1, hla.2, hlo.1, hlo.2⟩

/-- Witness for claim C6 at latitude 45 and longitude -120. -/
theorem valid_coordinate_index_in_range_witness :
    0 ≤ latIdx 45 ∧ latIdx 45 < 180 ∧ 0 ≤ lonIdx (-120) ∧ lonIdx (-120) < 360 :=
  valid_coordinate_index_in_range 45 (-120) (by decide) (by decide) (by decide) (by decide)

/-- Claim C7: the entries of one unit's two partial matrices sum to its
number of valid pixels, and after reduction over any unit list the global
background total plus feature total equals the total number of valid
pixels across the successful units. -/
theorem pixel_conservation (res : ℚ) (units : List WorkUnit) :
    (∀ pixels : List Pixel,
      gridsTotal (map_pixels_to_grid pixels (CountGrid.zeros 180 360)
        (CountGrid.zeros 180 360)) = validPixelCount pixels) ∧
    (reduceResults (units.map (runUnit res))).count_0.total +
      (reduceResults (units.map (runUnit res))).count_1.total =
      (units.map WorkUnit.validCount).sum := by
  refine ⟨fun pixels => map_pixels_total pixels, ?_⟩
  have hshape := runUnit_grid_shape res units
  rw [reduceResults_total _ hshape.1 hshape.2]
  exact units_grid_total res units

/-- Claim C8: each ratio cell equals feature divided by background plus
feature when that total is positive, and exactly 0 otherwise; a cell with
background 3 and feature 7 yields ratio 0.7, and an empty cell yields 0. -/
theorem ratio_matrix_correct :
    (∀ count_0 count_1 : CountGrid, ∀ i j : ℕ,
      (ratio_matrix count_0 count_1).entry i j =
        if 0 < count_0.entry i j + count_1.entry i j then
          (count_1.entry i j : ℚ) / ((count_0.entry i j : ℚ) + (count_1.entry i j : ℚ))
        else 0) ∧
    (ratio_matrix exampleBackground exampleFeature).entry 10 20 = 0.7 ∧
    (ratio_matrix exampleBackground exampleFeature).entry 0 0 = 0 := by
  have hgen : ∀ count_0 count_1 : CountGrid, ∀ i j : ℕ,
      (ratio_matrix count_0 count_1).entry i j =
        if 0 < count_0.entry i j + count_1.entry i j then
          (count_1.entry i j : ℚ) / ((count_0.entry i j : ℚ) + (count_1.entry i j : ℚ))
        else 0 := by
    intro count_0 count_1 i j
    simp only [ratio_matrix, CountGrid.add]
    split_ifs with h
    · push_cast
      rfl
    · rfl
  refine ⟨hgen, ?_, ?_⟩
  · rw [hgen]
    norm_num [exampleBackground, exampleFeature]
  · rw [hgen]
    norm_num [exampleBackground, exampleFeature]

/-- Claim C9 counterexample: with resolution -1 and worker count 0 the run
does not abort: it processes the single unit in the sequential branch and
returns success count 1. -/
theorem config_validation_counterexample :
    (process_contrail_data (-1) 0 [sampleUnit]).isFatal = false ∧
    (process_contrail_data (-1) 0 [sampleUnit]).returned = 1 := by
  exact ⟨rfl, rfl⟩

/-- Claim C9, amended: the run never aborts with a fatal error for any
configuration: resolution is never validated, a worker count below 2
selects the sequential branch (behaving exactly as workers equal to 1),
and per-unit failures only extend the failure list. -/
theorem run_never_fatal (res : ℚ) (workers : ℤ) (units : List WorkUnit) :
    (process_contrail_data res workers units).isFatal = false ∧
    (workers ≤ 1 → process_contrail_data res workers units =
      process_contrail_data res 1 units) := by
  have hdone : ∀ st : ReduceState,
      (if st.successful_files = 0 then RunOutcome.done st none 0
        else RunOutcome.done st (some (ratio_matrix st.count_0 st.count_1))
          st.successful_files).isFatal = false := by
    intro st
    split_ifs <;> rfl
  constructor
  · unfold process_contrail_data
    split_ifs
    · rfl
    · exact hdone _
    · exact hdone _
  · intro hw
    unfold process_contrail_data
    rw [if_neg (show ¬1 < workers by omega), if_neg (show ¬(1 : ℤ) < 1 by omega)]

/-- Witness for claim C9 as amended, at resolution 1 and worker count 0. -/
theorem run_never_fatal_witness :
    (process_contrail_data 1 0 [sampleUnit]).isFatal = false ∧
    process_contrail_data 1 0 [sampleUnit] = process_contrail_data 1 1 [sampleUnit] :=
  ⟨(run_never_fatal 1 0 [sampleUnit]).1, (run_never_fatal 1 0 [sampleUnit]).2 (by decide)⟩

/-- Claim C10: for a pixel with valid coordinates the accumulator
increments the background matrix only when the class value is exactly 0,
and the feature matrix for every other class value (2, -1, ...): the
two-class domain is never validated. -/
theorem class_value_branch_unchecked (st : CountGrid × CountGrid) (v : ℤ) (lat lon : ℚ)
    (h1 : -90 ≤ lat) (h2 : lat ≤ 90) (h3 : -180 ≤ lon) (h4 : lon ≤ 180) :
    processPixel st ⟨v, some lat, some lon⟩ =
      if v = 0 then (st.1.inc (latIdx lat).toNat (lonIdx lon).toNat, st.2)
      else (st.1, st.2.inc (latIdx lat).toNat (lonIdx lon).toNat) :=
  processPixel_valid st v lat lon h1 h2 h3 h4

/-- Witness for claim C10 at class value 2. -/
theorem class_value_branch_unchecked_witness :
    processPixel (CountGrid.zeros 180 360, CountGrid.zeros 180 360) ⟨2, some 45, some 10⟩ =
      if (2 : ℤ) = 0 then
        ((CountGrid.zeros 180 360).inc (latIdx 45).toNat (lonIdx 10).toNat,
          CountGrid.zeros 180 360)
      else
        (CountGrid.zeros 180 360,
          (CountGrid.zeros 180 360).inc (latIdx 45).toNat (lonIdx 10).toNat) :=
  class_value_branch_unchecked (CountGrid.zeros 180 360, CountGrid.zeros 180 360) 2 45 10
    (by decide) (by decide) (by decide) (by decide)

end Contrail
